import Mathlib

/-!
Shallow embedding of the `metrics` Go package
(phase1/01-metrics-system: metrics.go, counter/registry code in errors.go,
gauge.go) and proofs of the specified properties.

Modelling conventions:
* Instruments are mutable heap objects shared by reference between callers
  and the registry.  The heap is a list of instrument states; a reference is
  the allocation index.
* `atomic.Int64` arithmetic wraps in two's complement, so counter values are
  integers reduced by `i64wrap` after every addition.
* `atomic.Float64` values are carried opaquely as their 64-bit patterns
  (`Nat`): the verified properties store and reload gauge values but never
  perform floating-point arithmetic on them, so no IEEE-754 semantics are
  needed.  The Go zero value of a float64 is the pattern 0 (+0.0).
* A Go `map[string]Metric` is an association list with pairwise-distinct
  keys (the operations preserve distinctness); the registry's possibly-nil
  map is an `Option` of such a list, `none` being the nil map.
* Returning `(result, err)` pairs models Go's in-place mutation plus error
  return: the first component is the registry state after the call.
-/

namespace Metrics

/-- Reduction of an integer into the int64 range, as Go two's-complement
`int64` addition does on overflow. -/
def i64wrap (n : Int) : Int := (n + 2 ^ 63) % 2 ^ 64 - 2 ^ 63

/-- A dynamically typed metric value as returned by the Go method `Value()`
(`interface{}`): an `int64` payload for a Counter, a `float64` payload
(carried as its bit pattern) for a Gauge. -/
inductive MetricValue where
  | int (v : Int)
  | float (bits : Nat)
deriving DecidableEq, Repr

/-- The state of one instrument object: the immutable `name` field plus the
single atomic numeric cell. -/
inductive MetricState where
  | counter (name : String) (value : Int)
  | gauge (name : String) (bits : Nat)
deriving DecidableEq, Repr

/-- The `Name()` accessor of either instrument. -/
def MetricState.nameOf : MetricState → String
  | .counter n _ => n
  | .gauge n _ => n

/-- The `Value()` accessor of either instrument (dynamic dispatch through the
`Metric` interface). -/
def MetricState.valueOf : MetricState → MetricValue
  | .counter _ v => .int v
  | .gauge _ b => .float b

/-- The mutable store of instrument objects; a reference is an index. -/
structure Heap where
  objs : List MetricState
deriving DecidableEq, Repr

/-- Dereference a metric reference. -/
def Heap.get (h : Heap) (r : Nat) : Option MetricState := h.objs.get? r

/-- Overwrite the object behind a reference. -/
def Heap.set (h : Heap) (r : Nat) (st : MetricState) : Heap := ⟨h.objs.set r st⟩

/-- Allocate a fresh object, returning the new heap and its reference. -/
def Heap.alloc (h : Heap) (st : MetricState) : Heap × Nat :=
  (⟨h.objs ++ [st]⟩, h.objs.length)

/-- `NewCounter(name)`: allocates a counter starting at 0, no validation. -/
def NewCounter (h : Heap) (name : String) : Heap × Nat :=
  h.alloc (.counter name 0)

/-- `NewGauge(name)`: allocates a gauge starting at 0.0, no validation. -/
def NewGauge (h : Heap) (name : String) : Heap × Nat :=
  h.alloc (.gauge name 0)

/-- `Metric.Name()` through a reference.  A dangling reference (which the API
never produces) defaults to the empty string. -/
def Metric.Name (h : Heap) (m : Nat) : String :=
  match h.get m with
  | some st => st.nameOf
  | none => ""

/-- `Metric.Value()` through a reference (dangling references, never produced
by the API, default to an int64 zero). -/
def Metric.Value (h : Heap) (m : Nat) : MetricValue :=
  match h.get m with
  | some st => st.valueOf
  | none => .int 0

/-- `Counter.Load()`: reads the atomic cell. -/
def Counter.Load (h : Heap) (c : Nat) : Int :=
  match h.get c with
  | some (.counter _ v) => v
  | _ => 0

/-- `Counter.Inc()`: `c.value.Add(1)`. -/
def Counter.Inc (h : Heap) (c : Nat) : Heap :=
  match h.get c with
  | some (.counter n v) => h.set c (.counter n (i64wrap (v + 1)))
  | _ => h

/-- `Counter.Add(delta)`: clamps a negative delta to 0, then `value.Add`. -/
def Counter.Add (h : Heap) (c : Nat) (delta : Int) : Heap :=
  let d := if delta < 0 then 0 else delta
  match h.get c with
  | some (.counter n v) => h.set c (.counter n (i64wrap (v + d)))
  | _ => h

/-- `Gauge.Load()`: reads the atomic cell (as a bit pattern). -/
def Gauge.Load (h : Heap) (g : Nat) : Nat :=
  match h.get g with
  | some (.gauge _ b) => b
  | _ => 0

/-- `Gauge.Set(value)`: stores the given value (as a bit pattern). -/
def Gauge.Set (h : Heap) (g : Nat) (bits : Nat) : Heap :=
  match h.get g with
  | some (.gauge n _) => h.set g (.gauge n bits)
  | _ => h

/-- Go map indexing `m[name]` on the association-list representation. -/
def assocLookup {α : Type} : List (String × α) → String → Option α
  | [], _ => none
  | (k, v) :: rest, name => if k = name then some v else assocLookup rest name

/-- Go map `delete(m, name)` on the association-list representation. -/
def assocErase {α : Type} : List (String × α) → String → List (String × α)
  | [], _ => []
  | (k, v) :: rest, name =>
    if k = name then assocErase rest name else (k, v) :: assocErase rest name

/-- The errors returned by registry operations: the ad-hoc
"cannot register nil metric" error, `ErrInvalidMetricName`, and the wrapped
forms of `ErrDuplicateMetric` and `ErrMetricNotFound` (which carry the
offending name via `fmt.Errorf`). -/
inductive RegError where
  | nilMetric
  | invalidMetricName
  | duplicateMetric (name : String)
  | metricNotFound (name : String)
deriving DecidableEq, Repr

/-- The `Registry` struct: its `metrics map[string]Metric` field, `none`
being the nil map of a zero-value Registry. -/
structure Registry where
  metrics : Option (List (String × Nat))
deriving DecidableEq, Repr

/-- The Go zero value `var r Registry`: a nil map. -/
def Registry.zero : Registry := { metrics := none }

/-- `NewRegistry(capacity)`: allocates an empty map (the capacity is only a
size hint with no observable effect). -/
def NewRegistry (_capacity : Int) : Registry :=
  { metrics := some [] }

/-- `Registry.Register(metric)`: nil check, empty-name check, lazy map
initialization, duplicate check, insertion — in source order.  Returns the
registry state after the call together with the error, if any. -/
def Registry.Register (r : Registry) (h : Heap) (m : Option Nat) :
    Registry × Option RegError :=
  match m with
  | none => (r, some .nilMetric)
  | some ref =>
    let name := Metric.Name h ref
    if name = "" then (r, some .invalidMetricName)
    else
      let entries := r.metrics.getD []
      if (assocLookup entries name).isSome then
        ({ metrics := some entries }, some (.duplicateMetric name))
      else
        ({ metrics := some (entries ++ [(name, ref)]) }, none)

/-- `Registry.Unregister(name)`. -/
def Registry.Unregister (r : Registry) (name : String) :
    Registry × Option RegError :=
  match r.metrics with
  | none => (r, some (.metricNotFound name))
  | some entries =>
    if (assocLookup entries name).isSome then
      ({ metrics := some (assocErase entries name) }, none)
    else
      (r, some (.metricNotFound name))

/-- `Registry.Get(name)`: `some ref` models `(metric, true)`, `none` models
`(nil, false)`. -/
def Registry.Get (r : Registry) (name : String) : Option Nat :=
  match r.metrics with
  | none => none
  | some entries => assocLookup entries name

/-- `Registry.Snapshot()`: a freshly allocated map holding each instrument's
`Value()`.  The outer `Option` models Go map nil-ness: both branches of the
source allocate, so the result is never `none`. -/
def Registry.Snapshot (r : Registry) (h : Heap) :
    Option (List (String × MetricValue)) :=
  match r.metrics with
  | none => some []
  | some entries => some (entries.map fun p => (p.1, Metric.Value h p.2))

/-- `Registry.Len()`. -/
def Registry.Len (r : Registry) : Nat :=
  match r.metrics with
  | none => 0
  | some entries => entries.length

/-- `Registry.Clear()`: replaces a non-nil map by a fresh empty one. -/
def Registry.Clear (r : Registry) : Registry :=
  match r.metrics with
  | none => r
  | some _ => { metrics := some [] }

/-- Distinctness of the keys of the registry map (automatic for a Go map;
maintained by the operations on the association-list representation). -/
def Registry.keysNodup (r : Registry) : Prop :=
  match r.metrics with
  | none => True
  | some entries => (entries.map Prod.fst).Nodup

/-- The registry invariant: at most one instrument per name, and every entry
holds a live (non-null) instrument whose `Name()` equals its key. -/
def Registry.Inv (h : Heap) (r : Registry) : Prop :=
  match r.metrics with
  | none => True
  | some entries =>
    (entries.map Prod.fst).Nodup ∧
    ∀ p ∈ entries, (h.get p.2).isSome ∧ Metric.Name h p.2 = p.1

/-- One registry mutation: a `Register`, `Unregister`, or `Clear` call. -/
inductive RegStep (h : Heap) : Registry → Registry → Prop where
  | register (r : Registry) (m : Option Nat) : RegStep h r (r.Register h m).1
  | unregister (r : Registry) (name : String) :
      RegStep h r (r.Unregister name).1
  | clear (r : Registry) : RegStep h r r.Clear

/-- A fresh counter named "c" in an otherwise empty heap. -/
def overflowHeap0 : Heap := (NewCounter ⟨[]⟩ "c").1

/-- The reference to that fresh counter. -/
def overflowRef : Nat := (NewCounter ⟨[]⟩ "c").2

/-- The heap after one `Add(math.MaxInt64)` on the fresh counter. -/
def overflowHeap1 : Heap := Counter.Add overflowHeap0 overflowRef (2 ^ 63 - 1)

/-- The heap after a second `Add(math.MaxInt64)`: the int64 cell wraps. -/
def overflowHeap2 : Heap := Counter.Add overflowHeap1 overflowRef (2 ^ 63 - 1)

/-! ### Helper lemmas about list indexing and association lists -/

lemma list_get?_some_lt {α : Type} :
    ∀ (l : List α) (i : Nat) (a : α), l.get? i = some a → i < l.length := by
  intro l
  induction l with
  | nil => intro i a hv; simp [List.get?] at hv
  | cons x xs ih =>
    intro i a hv
    cases i with
    | zero => simp
    | succ j =>
      simp only [List.get?] at hv
      have := ih j a hv
      simpa using Nat.succ_lt_succ this

lemma list_get?_set_self {α : Type} :
    ∀ (l : List α) (i : Nat) (a : α), i < l.length → (l.set i a).get? i = some a := by
  intro l
  induction l with
  | nil => intro i a hlt; simp at hlt
  | cons x xs ih =>
    intro i a hlt
    cases i with
    | zero => simp [List.set, List.get?]
    | succ j =>
      simp only [List.set, List.get?]
      exact ih j a (by simpa using Nat.lt_of_succ_lt_succ hlt)

lemma list_get?_append_length {α : Type} (l : List α) (a : α) :
    (l ++ [a]).get? l.length = some a := by
  induction l with
  | nil => rfl
  | cons x xs ih => exact ih

lemma assocLookup_eq_none {α : Type} (l : List (String × α)) (name : String) :
    assocLookup l name = none ↔ name ∉ l.map Prod.fst := by
  induction l with
  | nil => simp [assocLookup]
  | cons p rest ih =>
    obtain ⟨k, v⟩ := p
    by_cases hk : k = name
    · subst hk; simp [assocLookup]
    · have hk' : name ≠ k := fun h => hk h.symm
      simp [assocLookup, hk, hk', ih]

lemma assocLookup_isSome_iff {α : Type} (l : List (String × α)) (name : String) :
    (assocLookup l name).isSome ↔ name ∈ l.map Prod.fst := by
  rw [Option.isSome_iff_ne_none, ne_eq, assocLookup_eq_none]
  exact not_not

lemma assocLookup_append_self {α : Type} (l : List (String × α)) (name : String)
    (v : α) (hnone : assocLookup l name = none) :
    assocLookup (l ++ [(name, v)]) name = some v := by
  induction l with
  | nil => simp [assocLookup]
  | cons p rest ih =>
    obtain ⟨k, w⟩ := p
    by_cases hk : k = name
    · simp [assocLookup, hk] at hnone
    · simp only [assocLookup, hk, if_false] at hnone
      simp only [List.cons_append, assocLookup, hk, if_false]
      exact ih hnone

lemma assocErase_sublist {α : Type} (l : List (String × α)) (name : String) :
    (assocErase l name).Sublist l := by
  induction l with
  | nil => simp [assocErase]
  | cons p rest ih =>
    obtain ⟨k, v⟩ := p
    by_cases hk : k = name
    · simpa [assocErase, hk] using ih.cons (k, v)
    · simpa [assocErase, hk] using ih.cons₂ (k, v)

lemma assocErase_eq_self {α : Type} (l : List (String × α)) (name : String)
    (hn : name ∉ l.map Prod.fst) : assocErase l name = l := by
  induction l with
  | nil => rfl
  | cons p rest ih =>
    obtain ⟨k, v⟩ := p
    simp only [List.map_cons, List.mem_cons] at hn
    push_neg at hn
    have hk : k ≠ name := fun h => hn.1 h.symm
    simp [assocErase, hk, ih hn.2]

lemma assocLookup_erase_self {α : Type} (l : List (String × α)) (name : String) :
    assocLookup (assocErase l name) name = none := by
  induction l with
  | nil => simp [assocErase, assocLookup]
  | cons p rest ih =>
    obtain ⟨k, v⟩ := p
    by_cases hk : k = name
    · simp [assocErase, hk, ih]
    · simp [assocErase, assocLookup, hk, ih]

lemma assocErase_length {α : Type} (l : List (String × α)) (name : String)
    (hnd : (l.map Prod.fst).Nodup) (hmem : (assocLookup l name).isSome) :
    (assocErase l name).length + 1 = l.length := by
  induction l with
  | nil => simp [assocLookup] at hmem
  | cons p rest ih =>
    obtain ⟨k, v⟩ := p
    simp only [List.map_cons, List.nodup_cons] at hnd
    by_cases hk : k = name
    · subst hk
      simp [assocErase, assocErase_eq_self rest k hnd.1]
    · simp only [assocLookup, hk, if_false] at hmem
      simp only [assocErase, hk, if_false, List.length_cons]
      have := ih hnd.2 hmem
      omega

lemma assocLookup_map_of_mem {α : Type} (l : List (String × Nat)) (f : Nat → α)
    (hnd : (l.map Prod.fst).Nodup) {name : String} {r : Nat}
    (hmem : (name, r) ∈ l) :
    assocLookup (l.map fun p => (p.1, f p.2)) name = some (f r) := by
  induction l with
  | nil => simp at hmem
  | cons p rest ih =>
    obtain ⟨k, v⟩ := p
    simp only [List.map_cons, List.nodup_cons] at hnd
    rcases List.mem_cons.mp hmem with heq | hmem'
    · obtain ⟨hk, hv⟩ := Prod.mk.injEq .. ▸ heq
      subst hk; subst hv
      simp [assocLookup]
    · have hk : k ≠ name := by
        rintro rfl
        exact hnd.1 (List.mem_map_of_mem Prod.fst hmem')
      simp only [List.map_cons, assocLookup, hk, if_false]
      exact ih hnd.2 hmem'

/-! ### Helper lemmas about instruments -/

lemma if_neg_clamp_eq_max (d : Int) : (if d < 0 then 0 else d) = max d 0 := by
  rcases le_or_lt 0 d with h | h
  · simp [not_lt.mpr h, max_eq_left h]
  · simp [h, max_eq_right h.le]

lemma i64wrap_eq_self (n : Int) (hlo : -2 ^ 63 ≤ n) (hhi : n < 2 ^ 63) :
    i64wrap n = n := by
  unfold i64wrap
  have h1 : (0 : Int) ≤ n + 2 ^ 63 := by linarith
  have h2 : n + 2 ^ 63 < 2 ^ 64 := by norm_num at hhi ⊢; linarith
  rw [Int.emod_eq_of_lt h1 h2]
  ring

lemma counter_add_get (h : Heap) (c : Nat) (nm : String) (v d : Int)
    (hc : h.get c = some (.counter nm v)) :
    (Counter.Add h c d).get c = some (.counter nm (i64wrap (v + max d 0))) := by
  have hlt : c < h.objs.length := list_get?_some_lt _ _ _ hc
  unfold Counter.Add
  rw [hc]
  simp only [Heap.get, Heap.set, if_neg_clamp_eq_max]
  exact list_get?_set_self _ _ _ hlt

lemma counter_add_load (h : Heap) (c : Nat) (nm : String) (v d : Int)
    (hc : h.get c = some (.counter nm v)) :
    Counter.Load (Counter.Add h c d) c = i64wrap (v + max d 0) := by
  unfold Counter.Load
  rw [counter_add_get h c nm v d hc]

lemma counter_inc_get (h : Heap) (c : Nat) (nm : String) (v : Int)
    (hc : h.get c = some (.counter nm v)) :
    (Counter.Inc h c).get c = some (.counter nm (i64wrap (v + 1))) := by
  have hlt : c < h.objs.length := list_get?_some_lt _ _ _ hc
  unfold Counter.Inc
  rw [hc]
  simp only [Heap.get, Heap.set]
  exact list_get?_set_self _ _ _ hlt

/-! ### Helper lemmas about the registry -/

lemma get_eq_lookup_getD (r : Registry) (name : String) :
    r.Get name = assocLookup (r.metrics.getD []) name := by
  obtain ⟨om⟩ := r
  cases om with
  | none => rfl
  | some entries => rfl

lemma name_isSome (h : Heap) (ref : Nat) (hname : Metric.Name h ref ≠ "") :
    (h.get ref).isSome := by
  unfold Metric.Name at hname
  cases hg : h.get ref with
  | none => rw [hg] at hname; simp at hname
  | some st => simp

/-! ### Claim theorems -/

/-- Claim C1: `Registry.Register` fails with the nil-metric error when the
argument is absent, with `ErrInvalidMetricName` when the instrument's name is
empty, with the wrapped `ErrDuplicateMetric` when the name is already
present, and in every other case succeeds and makes the instrument reachable
through `Get` under its name. -/
theorem register_error_cases (r : Registry) (h : Heap) (m : Option Nat) :
    (m = none → r.Register h m = (r, some RegError.nilMetric)) ∧
    (∀ ref, m = some ref → Metric.Name h ref = "" →
      r.Register h m = (r, some RegError.invalidMetricName)) ∧
    (∀ ref, m = some ref → Metric.Name h ref ≠ "" →
      (r.Get (Metric.Name h ref)).isSome →
      (r.Register h m).2 = some (RegError.duplicateMetric (Metric.Name h ref))) ∧
    (∀ ref, m = some ref → Metric.Name h ref ≠ "" →
      r.Get (Metric.Name h ref) = none →
      (r.Register h m).2 = none ∧
      (r.Register h m).1.Get (Metric.Name h ref) = some ref) := by
  refine ⟨fun hm => by subst hm; rfl, ?_, ?_, ?_⟩
  · rintro ref rfl hname
    simp [Registry.Register, hname]
  · rintro ref rfl hname hdup
    rw [get_eq_lookup_getD] at hdup
    simp [Registry.Register, hname, hdup]
  · rintro ref rfl hname hfresh
    rw [get_eq_lookup_getD] at hfresh
    constructor
    · simp [Registry.Register, hname, hfresh]
    · simp only [Registry.Register, hname, if_false, hfresh, Option.isSome_none,
        Bool.false_eq_true, Registry.Get]
      exact assocLookup_append_self _ _ _ hfresh

/-- Claim C1 witness: on a registry holding nothing, registering a counter
named "a" succeeds and `Get "a"` finds it. -/
theorem register_error_cases_witness :
    Metric.Name ⟨[MetricState.counter "a" 0]⟩ 0 ≠ "" ∧
    Registry.zero.Get (Metric.Name ⟨[MetricState.counter "a" 0]⟩ 0) = none ∧
    ((Registry.zero.Register ⟨[MetricState.counter "a" 0]⟩ (some 0)).2 = none ∧
      (Registry.zero.Register ⟨[MetricState.counter "a" 0]⟩ (some 0)).1.Get
        (Metric.Name ⟨[MetricState.counter "a" 0]⟩ 0) = some 0) :=
  ⟨by decide, rfl,
    (register_error_cases Registry.zero ⟨[MetricState.counter "a" 0]⟩
      (some 0)).2.2.2 0 rfl (by decide) rfl⟩

/-- Claim C5: a successful `Register` of an instrument with a valid, fresh
name followed by `Get` on that name returns the same reference. -/
theorem register_get_roundtrip (r : Registry) (h : Heap) (ref : Nat)
    (hname : Metric.Name h ref ≠ "")
    (hfresh : r.Get (Metric.Name h ref) = none) :
    (r.Register h (some ref)).2 = none ∧
    (r.Register h (some ref)).1.Get (Metric.Name h ref) = some ref := by
  rw [get_eq_lookup_getD] at hfresh
  constructor
  · simp [Registry.Register, hname, hfresh]
  · simp only [Registry.Register, hname, if_false, hfresh, Option.isSome_none,
      Bool.false_eq_true, Registry.Get]
    exact assocLookup_append_self _ _ _ hfresh

/-- Claim C5 witness: registering gauge "g" into an empty constructed
registry and reading it back. -/
theorem register_get_roundtrip_witness :
    Metric.Name ⟨[MetricState.gauge "g" 0]⟩ 0 ≠ "" ∧
    (NewRegistry 10).Get (Metric.Name ⟨[MetricState.gauge "g" 0]⟩ 0) = none ∧
    ((NewRegistry 10).Register ⟨[MetricState.gauge "g" 0]⟩ (some 0)).1.Get
      (Metric.Name ⟨[MetricState.gauge "g" 0]⟩ 0) = some 0 :=
  ⟨by decide, rfl,
    (register_get_roundtrip (NewRegistry 10) ⟨[MetricState.gauge "g" 0]⟩ 0
      (by decide) rfl).2⟩

/-- Claim C6: whenever `Register` returns an error, the registry is left
exactly as it was: same state, same `Len`, same `Get` answer for every
name. -/
theorem register_error_unchanged (r : Registry) (h : Heap) (m : Option Nat)
    (e : RegError) (herr : (r.Register h m).2 = some e) :
    (r.Register h m).1 = r ∧
    (r.Register h m).1.Len = r.Len ∧
    ∀ name, (r.Register h m).1.Get name = r.Get name := by
  have hst : (r.Register h m).1 = r := by
    match m with
    | none => rfl
    | some ref =>
      by_cases hname : Metric.Name h ref = ""
      · simp [Registry.Register, hname]
      · obtain ⟨om⟩ := r
        cases om with
        | none =>
          simp [Registry.Register, hname, assocLookup] at herr
        | some entries =>
          cases hlk : assocLookup entries (Metric.Name h ref) with
          | some v => simp [Registry.Register, hname, hlk]
          | none => simp [Registry.Register, hname, hlk] at herr
  exact ⟨hst, by rw [hst], fun name => by rw [hst]⟩

/-- Claim C6 witness: a duplicate registration of name "a" errors and leaves
the one-entry registry intact. -/
theorem register_error_unchanged_witness :
    ((Registry.mk (some [("a", 0)])).Register ⟨[MetricState.counter "a" 0]⟩
        (some 0)).2 = some (RegError.duplicateMetric "a") ∧
    ((Registry.mk (some [("a", 0)])).Register ⟨[MetricState.counter "a" 0]⟩
        (some 0)).1 = Registry.mk (some [("a", 0)]) :=
  ⟨by decide,
    (register_error_unchanged (Registry.mk (some [("a", 0)]))
      ⟨[MetricState.counter "a" 0]⟩ (some 0)
      (RegError.duplicateMetric "a") (by decide)).1⟩

/-- Claim C4: an unconstructed (zero-value) registry behaves as empty —
`Len` is 0, `Get` misses for every name, `Snapshot` is an empty but non-nil
map — and the first `Register` succeeds, transparently allocating the
internal map. -/
theorem zero_registry_usable (h : Heap) (ref : Nat)
    (hname : Metric.Name h ref ≠ "") :
    Registry.zero.Len = 0 ∧
    (∀ n, Registry.zero.Get n = none) ∧
    Registry.zero.Snapshot h = some [] ∧
    (Registry.zero.Register h (some ref)).2 = none ∧
    (Registry.zero.Register h (some ref)).1.metrics =
      some [(Metric.Name h ref, ref)] := by
  refine ⟨rfl, fun n => rfl, rfl, ?_, ?_⟩ <;>
    simp [Registry.Register, Registry.zero, hname, assocLookup]

/-- Claim C4 witness: the zero registry accepts counter "a" as its first
registration. -/
theorem zero_registry_usable_witness :
    Metric.Name ⟨[MetricState.counter "a" 0]⟩ 0 ≠ "" ∧
    (Registry.zero.Register ⟨[MetricState.counter "a" 0]⟩ (some 0)).1.metrics =
      some [("a", 0)] :=
  ⟨by decide,
    (zero_registry_usable ⟨[MetricState.counter "a" 0]⟩ 0 (by decide)).2.2.2.2⟩

/-- Claim C7: `Unregister` fails with the wrapped `ErrMetricNotFound` exactly
when the name is absent, leaving the registry unchanged; on a present name
it succeeds, removes exactly that mapping (`Get` then misses) and decreases
`Len` by one.  The heap of instrument objects is not an input or output of
`Unregister`, so the instrument behind any retained reference is untouched. -/
theorem unregister_spec (r : Registry) (name : String) (hnd : r.keysNodup) :
    ((r.Unregister name).2 = some (RegError.metricNotFound name) ↔
      r.Get name = none) ∧
    (r.Get name = none → (r.Unregister name).1 = r) ∧
    (∀ ref, r.Get name = some ref →
      (r.Unregister name).2 = none ∧
      (r.Unregister name).1.Get name = none ∧
      (r.Unregister name).1.Len + 1 = r.Len) := by
  obtain ⟨om⟩ := r
  cases om with
  | none =>
    refine ⟨by simp [Registry.Unregister, Registry.Get], fun _ => rfl, ?_⟩
    intro ref href
    simp [Registry.Get] at href
  | some entries =>
    have hnd' : (entries.map Prod.fst).Nodup := hnd
    cases hlk : assocLookup entries name with
    | some v =>
      refine ⟨by simp [Registry.Unregister, Registry.Get, hlk], ?_, ?_⟩
      · intro habs
        simp [Registry.Get, hlk] at habs
      · intro ref _
        refine ⟨by simp [Registry.Unregister, hlk], ?_, ?_⟩
        · simp only [Registry.Unregister, hlk, Option.isSome_some, if_true]
          simp [Registry.Get, assocLookup_erase_self]
        · simp only [Registry.Unregister, hlk, Option.isSome_some, if_true]
          simp only [Registry.Len]
          exact assocErase_length entries name hnd' (by simp [hlk])
    | none =>
      refine ⟨by simp [Registry.Unregister, Registry.Get, hlk], fun _ => by
        simp [Registry.Unregister, hlk], ?_⟩
      intro ref href
      simp [Registry.Get, hlk] at href

/-- Claim C7 witness: removing "a" from a two-entry registry succeeds, `Get`
then misses it, and `Len` drops from 2 to 1. -/
theorem unregister_spec_witness :
    (Registry.mk (some [("a", 0), ("b", 1)])).keysNodup ∧
    (Registry.mk (some [("a", 0), ("b", 1)])).Get "a" = some 0 ∧
    (((Registry.mk (some [("a", 0), ("b", 1)])).Unregister "a").2 = none ∧
      ((Registry.mk (some [("a", 0), ("b", 1)])).Unregister "a").1.Get "a" =
        none ∧
      ((Registry.mk (some [("a", 0), ("b", 1)])).Unregister "a").1.Len + 1 =
        (Registry.mk (some [("a", 0), ("b", 1)])).Len) :=
  ⟨by show ((["a", "b"] : List String)).Nodup; decide, rfl,
    (unregister_spec (Registry.mk (some [("a", 0), ("b", 1)])) "a"
      (by show ((["a", "b"] : List String)).Nodup; decide)).2.2 0 rfl⟩

/-- Claim C9: `Value()` carries the same quantity as `Load()` — as the int64
payload for a counter and the float64 payload for a gauge. -/
theorem value_agrees_with_load (h : Heap) (m : Nat) :
    (∀ nm v, h.get m = some (MetricState.counter nm v) →
      Metric.Value h m = MetricValue.int (Counter.Load h m)) ∧
    (∀ nm b, h.get m = some (MetricState.gauge nm b) →
      Metric.Value h m = MetricValue.float (Gauge.Load h m)) := by
  constructor
  · intro nm v hc
    simp [Metric.Value, Counter.Load, hc, MetricState.valueOf]
  · intro nm b hg
    simp [Metric.Value, Gauge.Load, hg, MetricState.valueOf]

/-- Claim C9 witness: a counter holding 7 and a gauge holding bit pattern 13
both agree between `Value` and `Load`. -/
theorem value_agrees_with_load_witness :
    Metric.Value ⟨[MetricState.counter "c" 7, MetricState.gauge "g" 13]⟩ 0 =
      MetricValue.int
        (Counter.Load ⟨[MetricState.counter "c" 7, MetricState.gauge "g" 13]⟩ 0) ∧
    Metric.Value ⟨[MetricState.counter "c" 7, MetricState.gauge "g" 13]⟩ 1 =
      MetricValue.float
        (Gauge.Load ⟨[MetricState.counter "c" 7, MetricState.gauge "g" 13]⟩ 1) :=
  ⟨(value_agrees_with_load
      ⟨[MetricState.counter "c" 7, MetricState.gauge "g" 13]⟩ 0).1 "c" 7 rfl,
    (value_agrees_with_load
      ⟨[MetricState.counter "c" 7, MetricState.gauge "g" 13]⟩ 1).2 "g" 13 rfl⟩

/-- Claim C10: the constructors validate nothing — for every string,
including the empty one, `NewCounter` and `NewGauge` return an instrument
whose `Name()` is exactly that string and whose value starts at zero; an
empty name is rejected only later, by `Register`. -/
theorem constructors_skip_validation (h : Heap) (s : String) :
    (NewCounter h s).1.get (NewCounter h s).2 =
      some (MetricState.counter s 0) ∧
    Metric.Name (NewCounter h s).1 (NewCounter h s).2 = s ∧
    (NewGauge h s).1.get (NewGauge h s).2 = some (MetricState.gauge s 0) ∧
    Metric.Name (NewGauge h s).1 (NewGauge h s).2 = s ∧
    (∀ r : Registry, s = "" →
      (r.Register (NewCounter h s).1 (some (NewCounter h s).2)).2 =
        some RegError.invalidMetricName ∧
      (r.Register (NewGauge h s).1 (some (NewGauge h s).2)).2 =
        some RegError.invalidMetricName) := by
  have hc : (NewCounter h s).1.get (NewCounter h s).2 =
      some (MetricState.counter s 0) := by
    simp only [NewCounter, Heap.alloc, Heap.get]
    exact list_get?_append_length _ _
  have hg : (NewGauge h s).1.get (NewGauge h s).2 =
      some (MetricState.gauge s 0) := by
    simp only [NewGauge, Heap.alloc, Heap.get]
    exact list_get?_append_length _ _
  refine ⟨hc, by simp [Metric.Name, hc, MetricState.nameOf], hg,
    by simp [Metric.Name, hg, MetricState.nameOf], ?_⟩
  rintro r rfl
  constructor <;>
    simp [Registry.Register, Metric.Name, hc, hg, MetricState.nameOf]

/-- Claim C10 witness: `NewCounter ""` builds an instrument named `""` which
the zero registry then rejects with `ErrInvalidMetricName`. -/
theorem constructors_skip_validation_witness :
    Metric.Name (NewCounter ⟨[]⟩ "").1 (NewCounter ⟨[]⟩ "").2 = "" ∧
    (Registry.zero.Register (NewCounter ⟨[]⟩ "").1
        (some (NewCounter ⟨[]⟩ "").2)).2 = some RegError.invalidMetricName :=
  ⟨(constructors_skip_validation ⟨[]⟩ "").2.1,
    ((constructors_skip_validation ⟨[]⟩ "").2.2.2.2 Registry.zero rfl).1⟩

/-! ### Invariant preservation -/

lemma inv_register (h : Heap) (r : Registry) (m : Option Nat)
    (hinv : Registry.Inv h r) : Registry.Inv h (r.Register h m).1 := by
  match m with
  | none => exact hinv
  | some ref =>
    by_cases hname : Metric.Name h ref = ""
    · simpa [Registry.Register, hname] using hinv
    · have hsome := name_isSome h ref hname
      obtain ⟨om⟩ := r
      cases om with
      | none =>
        simp only [Registry.Register, hname, if_false, Option.getD_none,
          assocLookup, Option.isSome_none, Bool.false_eq_true, if_false,
          List.nil_append]
        simp only [Registry.Inv, List.map_cons, List.map_nil,
          List.nodup_cons, List.not_mem_nil, not_false_iff, List.nodup_nil,
          and_true, List.mem_singleton, true_and]
        rintro p rfl
        exact ⟨hsome, rfl⟩
      | some entries =>
        simp only [Registry.Inv] at hinv
        obtain ⟨hnd, hall⟩ := hinv
        cases hlk : assocLookup entries (Metric.Name h ref) with
        | some v =>
          simp only [Registry.Register, hname, if_false, Option.getD_some,
            hlk, Option.isSome_some, if_true]
          exact ⟨hnd, hall⟩
        | none =>
          simp only [Registry.Register, hname, if_false, Option.getD_some,
            hlk, Option.isSome_none, Bool.false_eq_true, if_false]
          refine ⟨?_, ?_⟩
          · rw [List.map_append]
            refine List.nodup_append.mpr ⟨hnd, List.nodup_singleton _, ?_⟩
            intro a ha hb
            simp only [List.map_cons, List.map_nil, List.mem_singleton] at hb
            subst hb
            exact (assocLookup_eq_none entries _ |>.mp hlk) ha
          · intro p hp
            rcases List.mem_append.mp hp with hold | hnew
            · exact hall p hold
            · simp only [List.mem_singleton] at hnew
              subst hnew
              exact ⟨hsome, rfl⟩

lemma inv_unregister (h : Heap) (r : Registry) (name : String)
    (hinv : Registry.Inv h r) : Registry.Inv h (r.Unregister name).1 := by
  obtain ⟨om⟩ := r
  cases om with
  | none => exact hinv
  | some entries =>
    simp only [Registry.Inv] at hinv
    obtain ⟨hnd, hall⟩ := hinv
    cases hlk : assocLookup entries name with
    | some v =>
      simp only [Registry.Unregister, hlk, Option.isSome_some, if_true]
      refine ⟨?_, ?_⟩
      · exact hnd.sublist ((assocErase_sublist entries name).map Prod.fst)
      · intro p hp
        exact hall p ((assocErase_sublist entries name).subset hp)
    | none =>
      simp only [Registry.Unregister, hlk, Option.isSome_none,
        Bool.false_eq_true, if_false]
      exact ⟨hnd, hall⟩

lemma inv_clear (h : Heap) (r : Registry) (hinv : Registry.Inv h r) :
    Registry.Inv h r.Clear := by
  obtain ⟨om⟩ := r
  cases om with
  | none => exact hinv
  | some entries => simp [Registry.Clear, Registry.Inv]

/-- Claim C8: in every registry state reachable from an invariant-satisfying
state (in particular from the zero registry or a fresh `NewRegistry`) by any
sequence of `Register`, `Unregister` and `Clear` calls, the entry map has
pairwise-distinct names and every entry holds a live instrument whose
`Name()` equals its key. -/
theorem registry_invariant_reachable (h : Heap) (r0 r : Registry)
    (hinv : Registry.Inv h r0)
    (hreach : Relation.ReflTransGen (RegStep h) r0 r) :
    Registry.Inv h r := by
  induction hreach with
  | refl => exact hinv
  | tail _ hstep ih =>
    cases hstep with
    | register m => exact inv_register h _ m ih
    | unregister name => exact inv_unregister h _ name ih
    | clear => exact inv_clear h _ ih

/-- Claim C8 witness: the state reached from the zero registry by one
successful registration of counter "a" satisfies the invariant. -/
theorem registry_invariant_reachable_witness :
    Registry.Inv ⟨[MetricState.counter "a" 0]⟩ Registry.zero ∧
    Registry.Inv ⟨[MetricState.counter "a" 0]⟩
      ((Registry.zero.Register ⟨[MetricState.counter "a" 0]⟩ (some 0)).1) :=
  ⟨trivial,
    registry_invariant_reachable ⟨[MetricState.counter "a" 0]⟩ Registry.zero
      ((Registry.zero.Register ⟨[MetricState.counter "a" 0]⟩ (some 0)).1)
      trivial
      (Relation.ReflTransGen.single
        (RegStep.register Registry.zero (some 0)))⟩

/-- Claim C2: with distinct names, `Snapshot` returns a non-nil map with
exactly one entry per registered instrument, holding that instrument's
`Value()` at the moment of the call; the returned map contains value
payloads, not instrument references, so mutating an instrument afterwards
changes only snapshots taken later: after a `Counter.Add` the old snapshot
still holds the old value while a fresh snapshot holds the new one. -/
theorem snapshot_complete_isolated (r : Registry) (h : Heap)
    (entries : List (String × Nat)) (hm : r.metrics = some entries)
    (hnd : (entries.map Prod.fst).Nodup) :
    ∃ l, r.Snapshot h = some l ∧
      l.length = r.Len ∧
      (∀ name ref, (name, ref) ∈ entries →
        assocLookup l name = some (Metric.Value h ref)) ∧
      (∀ ref nm v d, (nm, ref) ∈ entries →
        h.get ref = some (MetricState.counter nm v) →
        ∃ l2, r.Snapshot (Counter.Add h ref d) = some l2 ∧
          assocLookup l2 nm = some (MetricValue.int (i64wrap (v + max d 0))) ∧
          assocLookup l nm = some (MetricValue.int v)) := by
  obtain ⟨om⟩ := r
  have hm' : om = some entries := hm
  subst hm'
  refine ⟨entries.map (fun p => (p.1, Metric.Value h p.2)), ?_,
    by simp [Registry.Len], ?_, ?_⟩
  · rfl
  · intro name ref hmem
    exact assocLookup_map_of_mem entries _ hnd hmem
  · intro ref nm v d hmem hc
    refine ⟨entries.map (fun p => (p.1, Metric.Value (Counter.Add h ref d) p.2)),
      ?_, ?_, ?_⟩
    · rfl
    · rw [assocLookup_map_of_mem entries _ hnd hmem]
      simp [Metric.Value, counter_add_get h ref nm v d hc,
        MetricState.valueOf]
    · rw [assocLookup_map_of_mem entries _ hnd hmem]
      simp [Metric.Value, hc, MetricState.valueOf]

/-- Claim C2 witness: a registry holding counter "c" at 5; its snapshot
records 5; after `Add 10` a fresh snapshot records 15 while the formula for
the first snapshot still records 5. -/
theorem snapshot_complete_isolated_witness :
    ∃ l, (Registry.mk (some [("c", 0)])).Snapshot
        ⟨[MetricState.counter "c" 5]⟩ = some l ∧
      l.length = (Registry.mk (some [("c", 0)])).Len ∧
      (∀ name ref, (name, ref) ∈ [("c", 0)] →
        assocLookup l name =
          some (Metric.Value ⟨[MetricState.counter "c" 5]⟩ ref)) ∧
      (∀ ref nm v d, (nm, ref) ∈ [("c", 0)] →
        Heap.get ⟨[MetricState.counter "c" 5]⟩ ref =
          some (MetricState.counter nm v) →
        ∃ l2, (Registry.mk (some [("c", 0)])).Snapshot
            (Counter.Add ⟨[MetricState.counter "c" 5]⟩ ref d) = some l2 ∧
          assocLookup l2 nm =
            some (MetricValue.int (i64wrap (v + max d 0))) ∧
          assocLookup l nm = some (MetricValue.int v)) :=
  snapshot_complete_isolated (Registry.mk (some [("c", 0)]))
    ⟨[MetricState.counter "c" 5]⟩ [("c", 0)] rfl (by decide)

/-- Claim C3 counterexample: `Counter.Add` does not always increase the
value by `max(delta, 0)`, and a counter can decrease through `Add`: the
`atomic.Int64` cell wraps.  A fresh counter after `Add(2^63 - 1)` holds
`2^63 - 1`; a second `Add(2^63 - 1)` overflows the int64 cell to `-2`,
strictly below the previous value and unequal to the claim's predicted
`(2^63 - 1) + max(2^63 - 1, 0)`. -/
theorem counter_add_can_decrease :
    Counter.Load overflowHeap1 overflowRef = 2 ^ 63 - 1 ∧
    Counter.Load overflowHeap2 overflowRef = -2 ∧
    Counter.Load overflowHeap2 overflowRef <
      Counter.Load overflowHeap1 overflowRef ∧
    Counter.Load overflowHeap2 overflowRef ≠
      Counter.Load overflowHeap1 overflowRef + max (2 ^ 63 - 1 : Int) 0 := by
  refine ⟨by decide, by decide, by decide, by decide⟩

/-- Claim C3 (amended): `Add(delta)` adds `max(delta, 0)` to the counter in
wrapping two's-complement int64 arithmetic; whenever the mathematical sum
stays inside the int64 range the value increases by exactly `max(delta, 0)`
and hence never decreases; a fresh counter after `Inc(), Inc(), Add(5)`
loads 7, and after `Add(-5)` alone loads 0. -/
theorem counter_add_clamps (h : Heap) (c : Nat) (nm : String) (v d : Int)
    (hc : h.get c = some (MetricState.counter nm v)) :
    Counter.Load (Counter.Add h c d) c = i64wrap (v + max d 0) ∧
    (-2 ^ 63 ≤ v → v + max d 0 < 2 ^ 63 →
      Counter.Load (Counter.Add h c d) c = v + max d 0 ∧
      v ≤ Counter.Load (Counter.Add h c d) c) ∧
    Counter.Load
      (Counter.Add
        (Counter.Inc
          (Counter.Inc (NewCounter ⟨[]⟩ "requests").1
            (NewCounter ⟨[]⟩ "requests").2)
          (NewCounter ⟨[]⟩ "requests").2)
        (NewCounter ⟨[]⟩ "requests").2 5)
      (NewCounter ⟨[]⟩ "requests").2 = 7 ∧
    Counter.Load
      (Counter.Add (NewCounter ⟨[]⟩ "r2").1 (NewCounter ⟨[]⟩ "r2").2 (-5))
      (NewCounter ⟨[]⟩ "r2").2 = 0 := by
  refine ⟨counter_add_load h c nm v d hc, ?_, by decide, by decide⟩
  intro hlo hhi
  have hmax : (0 : Int) ≤ max d 0 := le_max_right d 0
  have hw : i64wrap (v + max d 0) = v + max d 0 :=
    i64wrap_eq_self _ (by linarith) hhi
  rw [counter_add_load h c nm v d hc, hw]
  exact ⟨rfl, by linarith⟩

/-- Claim C3 witness: a counter at 3 after `Add 4` loads `i64wrap 7 = 7`. -/
theorem counter_add_clamps_witness :
    Heap.get ⟨[MetricState.counter "c" 3]⟩ 0 =
      some (MetricState.counter "c" 3) ∧
    Counter.Load (Counter.Add ⟨[MetricState.counter "c" 3]⟩ 0 4) 0 =
      i64wrap (3 + max 4 0) :=
  ⟨rfl, (counter_add_clamps ⟨[MetricState.counter "c" 3]⟩ 0 "c" 3 4 rfl).1⟩

end Metrics
